import Mathlib

/-!
Verification of the gocat deployment-orchestration core.

This file is a shallow embedding, in Lean 4, of the parts of the gocat
source that the specification talks about:

* `slack.go` — `SlackListener.toPhase`;
* `git.go` — `GitOperator.verify`, `GitOperator.commit`,
  `GitOperator.PushDockerImageTag`, `GitOperator.Clean`,
  `GitOperator.getLocalRepoRoot`, `GitOperator.DeleteBranch`,
  `GitOperator.createAndCheckoutNewBranch`, `KustomizationOverWrite.Update`;
* the kanvas gitops plugin — the tail of `GitOpsPluginKanvas.Prepare`
  that interprets the pull requests produced by `kanvas apply`;
* the auto-deploy watcher — `AutoDeploy.checkAndDeploy`.

Pure Go functions become Lean functions.  Effectful Go code is embedded by
passing the ambient state (filesystem, worktree, reference store) explicitly
and by recording the externally visible side effects (the git commit, the
push, the deploy-executor invocation, the chat notification) in the result,
with the outcomes of the external calls (clone, checkout, status, registry
queries) supplied as explicit oracle inputs.  Go `(value, error)` returns
become pairs with an `Option String` error component, `nil` errors being
`none`.
-/

namespace Gocat

/-! ## Data model: kustomize manifests (sigs.k8s.io/kustomize/api/types) -/

/-- Image mirrors `types.Image` from sigs.k8s.io/kustomize/api/types:
the fields are `Name`, `NewName`, `NewTag`, `Digest`, all strings.
A Go zero value of this struct has every field `""`. -/
structure Image where
  name : String
  newName : String
  newTag : String
  digest : String
  deriving Repr, DecidableEq

/-- YamlValue is a top-level field value of a modelled manifest document:
a scalar, a list of strings, or a list of images (the shapes the modelled
operations distinguish; richer values behave like scalars here). -/
inductive YamlValue where
  | scalar (s : String)
  | strList (l : List String)
  | imageList (l : List Image)
  deriving Repr, DecidableEq

/-- YamlDoc is a manifest document: an ordered list of top-level fields. -/
abbrev YamlDoc := List (String × YamlValue)

/-- kustomizationFieldKeys is the set of top-level yaml keys carried by the
fields of `types.Kustomization` (including its inlined `TypeMeta` and the
deprecated fields the struct still accepts): exactly the document keys a
non-strict `yaml.Unmarshal` into the struct retains.  Any other key has
no corresponding struct field. -/
def kustomizationFieldKeys : List String :=
  ["apiVersion", "kind", "metadata", "openapi",
   "namePrefix", "nameSuffix", "namespace",
   "commonLabels", "labels", "commonAnnotations",
   "patchesStrategicMerge", "patchesJson6902", "patches",
   "images", "replacements", "replicas", "vars", "sortOptions",
   "resources", "components", "crds", "bases",
   "configurations", "generators", "transformers", "validators",
   "buildMetadata", "configMapGenerator", "secretGenerator",
   "helmCharts", "helmGlobals", "helmChartInflationGenerator",
   "generatorOptions", "inventory"]

/-- Kustomization mirrors `types.Kustomization` from
sigs.k8s.io/kustomize/api/types.  `Images` is the only field any gocat
operation inspects, so it is carried structurally; the struct's other
yaml-tagged fields (`namespace`, `namePrefix`, `patches`,
`configMapGenerator`, `generatorOptions`, ... — the keys of
`kustomizationFieldKeys`) are carried uniformly in `fields` as the
document's entries for those keys, since unmarshalling reads and
marshalling writes each of them independently of the others and nothing
in gocat touches them. -/
structure Kustomization where
  images : List Image
  fields : List (String × YamlValue)
  deriving Repr, DecidableEq

/-- KustomizationOverWrite mirrors the struct of the same name in `git.go`:
`tag` is the new image tag, `targetTag` is the image name to rewrite. -/
structure KustomizationOverWrite where
  tag : String
  targetTag : String
  deriving Repr, DecidableEq

/-- Update is the structural core of `KustomizationOverWrite.Update`
(git.go lines 375–396), acting on the already-unmarshalled
`types.Kustomization` value: every image whose `Name` equals
`targetTag` gets its `NewTag` set to `tag`; if no image matched,
a fresh `types.Image{Name: targetTag, NewTag: tag}` (other fields
zero-valued) is appended.  The surrounding `yaml.Unmarshal` /
`yaml.Marshal` steps of the Go method are modelled separately by
`yamlUnmarshalKustomization` / `yamlMarshalKustomization`. -/
def KustomizationOverWrite.Update (o : KustomizationOverWrite)
    (obj : Kustomization) : Kustomization :=
  let updated := obj.images.any (fun image => image.name == o.targetTag)
  let images := obj.images.map
    (fun image =>
      if image.name == o.targetTag then { image with newTag := o.tag } else image)
  if updated then
    { obj with images := images }
  else
    { obj with images := obj.images ++
        [{ name := o.targetTag, newName := "", newTag := o.tag, digest := "" }] }

/-! ## Yaml (un)marshalling of manifests

`GitOperator.commit` reads the file bytes, runs `OverWrite.Update` (which
starts with `yaml.Unmarshal` into a `types.Kustomization`), then
`yaml.Marshal`s the result and writes it back.  We model a yaml document
as an ordered list of top-level key/value fields.  `gopkg.in/yaml.v2`
unmarshalling into a typed struct keeps exactly the keys that have a
corresponding struct field and silently drops every other key (non-strict
`Unmarshal`); marshalling emits the struct's fields.  Two normalizations
Marshal performs are not modelled, and no theorem below depends on them:
it writes fields in struct order rather than document order, and
`omitempty` elides fields holding zero values (which re-parse to the same
zero values, so parsed field values are insensitive to the elision). -/

/-- kustomizationFieldFilter keeps the document entries that a
`yaml.Unmarshal` into `types.Kustomization` stores in fields other than
`Images`: the entries whose key names a struct field, minus the images
key handled structurally. -/
def kustomizationFieldFilter (f : String × YamlValue) : Bool :=
  kustomizationFieldKeys.contains f.1 && f.1 != "images"

/-- yamlUnmarshalKustomization models `yaml.Unmarshal(b, &types.Kustomization{})`:
the images key populates `Images` (an absent key leaves the zero value),
every other key with a corresponding struct field is stored in that field,
and keys without a struct field are dropped. -/
def yamlUnmarshalKustomization (doc : YamlDoc) : Kustomization :=
  { images :=
      match doc.lookup "images" with
      | some (YamlValue.imageList l) => l
      | _ => []
    fields := doc.filter kustomizationFieldFilter }

/-- yamlMarshalKustomization models `yaml.Marshal` of the struct: it emits
exactly the struct's own fields — the non-image fields with their values,
and the images list when nonempty (`omitempty`). -/
def yamlMarshalKustomization (k : Kustomization) : YamlDoc :=
  k.fields
  ++ (if k.images.isEmpty then []
      else [("images", YamlValue.imageList k.images)])

/-- commitRoundTrip is the parse → update → re-serialize cycle a manifest
document goes through inside `GitOperator.commit` with a
`KustomizationOverWrite{tag, targetTag}` (git.go lines 326–335). -/
def commitRoundTrip (doc : YamlDoc) (tag targetTag : String) : YamlDoc :=
  yamlMarshalKustomization
    ((KustomizationOverWrite.mk tag targetTag).Update
      (yamlUnmarshalKustomization doc))

/-! ## GitOpsPluginKanvas.Prepare: outcome mapping -/

/-- PullRequest mirrors the pull-request records returned by the kanvas
client from `Apply` → `GetPullRequests`: a GraphQL node id, a number
carried as a string, and an HTML URL. -/
structure PullRequest where
  nodeID : String
  number : String
  htmlURL : String
  deriving Repr, DecidableEq

/-- DeployStatus mirrors gocat's deploy status constants
`DeployStatusSuccess`, `DeployStatusFail`, `DeployStatusAlready`. -/
inductive DeployStatus where
  | success
  | fail
  | already
  deriving Repr, DecidableEq

/-- GitOpsPrepareOutput mirrors the struct of the same name: pull-request
node id, number, HTML URL, branch and status. -/
structure GitOpsPrepareOutput where
  pullRequestID : String
  pullRequestNumber : Int
  pullRequestHTMLURL : String
  branch : String
  status : DeployStatus
  deriving Repr, DecidableEq

/-- digitsVal reads a nonempty all-digit character list as a natural
number; any other list yields `none`. -/
def digitsVal (cs : List Char) : Option Nat :=
  if cs.isEmpty then none
  else cs.foldlM
    (fun n c => if c.isDigit then some (n * 10 + (c.toNat - 48)) else none) 0

/-- atoi models Go's `strconv.Atoi`: an optional leading sign followed by
one or more ASCII digits, base 10, rejecting anything else and values
outside the 64-bit int range. -/
def atoi (s : String) : Option Int :=
  let signed : Option Int :=
    match s.data with
    | [] => none
    | c :: rest =>
      if c == '-' then (digitsVal rest).map (fun n => -(n : Int))
      else if c == '+' then (digitsVal rest).map (fun n => (n : Int))
      else (digitsVal s.data).map (fun n => (n : Int))
  signed.bind (fun n => if -(2 ^ 63) ≤ n ∧ n < 2 ^ 63 then some n else none)

/-- kanvasPullRequestHead is the pull-request head branch computed at
line 65 of the kanvas plugin:
`fmt.Sprintf("bot/docker-image-tag-%s-%s-%s", pj.ID, ph.Name, tag)`. -/
def kanvasPullRequestHead (pjID phName tag : String) : String :=
  "bot/docker-image-tag-" ++ pjID ++ "-" ++ phName ++ "-" ++ tag

/-- prepareZeroOutput is the `var o GitOpsPrepareOutput` value after the
initial `o.status = DeployStatusFail` assignment: all other fields are Go
zero values. -/
def prepareZeroOutput : GitOpsPrepareOutput :=
  { pullRequestID := "", pullRequestNumber := 0, pullRequestHTMLURL := ""
    branch := "", status := DeployStatus.fail }

/-- prepareFromPullRequests embeds the tail of `GitOpsPluginKanvas.Prepare`
(lines 191–231): given the project id, phase name and tag that determined
the head branch, and the pull requests the kanvas apply returned, it maps
them to the `(GitOpsPrepareOutput, error)` pair Prepare returns.  Zero
pull requests yield `DeployStatusAlready`; more than one yields the
initial failed output plus an error; exactly one is converted, its number
parsed with `strconv.Atoi` (a parse failure yields the failed output and
a conversion error). -/
def prepareFromPullRequests (pjID phName tag : String)
    (prs : List PullRequest) : GitOpsPrepareOutput × Option String :=
  let head := kanvasPullRequestHead pjID phName tag
  match prs with
  | [] => ({ prepareZeroOutput with status := DeployStatus.already }, none)
  | [pr] =>
    match atoi pr.number with
    | none =>
      (prepareZeroOutput, some "failed to convert pull request number to int")
    | some prNum =>
      ({ pullRequestID := pr.nodeID
         pullRequestNumber := prNum
         pullRequestHTMLURL := pr.htmlURL
         branch := head
         status := DeployStatus.success }, none)
  | _ =>
    (prepareZeroOutput,
      some "gocat does not yet support multiple pull requests created by kanvas")

/-! ## git.go: worktree status and verify -/

/-- StatusCode mirrors go-git's `git.StatusCode` values. -/
inductive StatusCode where
  | unmodified
  | untracked
  | modified
  | added
  | deleted
  | renamed
  | copied
  | updatedButUnmerged
  deriving Repr, DecidableEq

/-- FileStatus mirrors go-git's `git.FileStatus`: the staging-area code and
the worktree code for one path. -/
structure FileStatus where
  staging : StatusCode
  worktree : StatusCode
  deriving Repr, DecidableEq

/-- verify embeds `GitOperator.verify` (git.go lines 287–301) applied to the
status map `w.Status()` returned for the worktree, here a list of
path/status entries: the loop returns an error at the first entry whose
staging code differs from `git.Modified`, and `nil` otherwise. -/
def verify (status : List (String × FileStatus)) : Option String :=
  match status.find? (fun e => !(e.2.staging == StatusCode.modified)) with
  | some _ => some "There are some extra file updates"
  | none => none

/-! ## git.go: PushDockerImageTag -/

/-- PushAction is an externally visible side effect of
`GitOperator.PushDockerImageTag` that the specification's drift guard is
about: creating the commit on the work branch (`w.Commit`), and pushing
the branch ref to the remote (`remote.Push`). -/
inductive PushAction where
  | commitToBranch
  | pushToRemote
  deriving Repr, DecidableEq

/-- PushEnv supplies the outcomes of the external calls
`PushDockerImageTag` makes, in program order: the
`createAndCheckoutNewBranch` error, the two `g.commit` (file overwrite +
stage) errors, the worktree status that `g.verify` will see, and the
errors of `SetReference`, `Remote("origin")` and `remote.Push`. -/
structure PushEnv where
  checkoutErr : Option String
  commitKustomizationErr : Option String
  commitConfigmapErr : Option String
  statusEntries : List (String × FileStatus)
  setRefErr : Option String
  remoteErr : Option String
  pushErr : Option String
  deriving Repr, DecidableEq

/-- PushResult is what `PushDockerImageTag` returns — the branch name and
error — together with the trace of the side effects it performed. -/
structure PushResult where
  branch : String
  err : Option String
  actions : List PushAction
  deriving Repr, DecidableEq

/-- PushDockerImageTag embeds `GitOperator.PushDockerImageTag`
(git.go lines 164–220).  The branch name is
`fmt.Sprintf("bot/docker-image-tag-%s-%s-%s", id, phase.Name, tag)`.
Each failing step returns early with the accumulated side effects: a
checkout failure returns `("", err)`; a failing file overwrite or a
`verify` error returns before `w.Commit`, so neither commit nor push
happens; after the commit, a `SetReference` failure returns `("", err)`
and a missing remote returns before the push; the push itself is
attempted last and its error is only logged (returned, branch kept). -/
def PushDockerImageTag (env : PushEnv) (id phaseName tag : String) : PushResult :=
  let branch := "bot/docker-image-tag-" ++ id ++ "-" ++ phaseName ++ "-" ++ tag
  match env.checkoutErr with
  | some e => { branch := "", err := some e, actions := [] }
  | none =>
    match env.commitKustomizationErr with
    | some e => { branch := branch, err := some e, actions := [] }
    | none =>
      match env.commitConfigmapErr with
      | some e => { branch := branch, err := some e, actions := [] }
      | none =>
        match verify env.statusEntries with
        | some e => { branch := branch, err := some e, actions := [] }
        | none =>
          match env.setRefErr with
          | some e =>
            { branch := "", err := some e, actions := [PushAction.commitToBranch] }
          | none =>
            match env.remoteErr with
            | some e =>
              { branch := branch, err := some e
                actions := [PushAction.commitToBranch] }
            | none =>
              { branch := branch, err := env.pushErr
                actions := [PushAction.commitToBranch, PushAction.pushToRemote] }

/-- specBranchName follows the specification's words: the conventional
deploy branch name `bot/docker-image-tag-<project-id>-<phase-name>-<tag>`.
It is the yardstick the source's two branch-name computations are
compared against. -/
def specBranchName (projectID phaseName tag : String) : String :=
  "bot/docker-image-tag-" ++ projectID ++ "-" ++ phaseName ++ "-" ++ tag

/-! ## git.go: commit (file overwrite inside the worktree) -/

/-- Worktree is the state of the checked-out working tree that
`GitOperator.commit` touches: the files (path → byte contents, as
strings) and the set of staged paths (`w.Add`). -/
structure Worktree where
  files : List (String × String)
  staged : List String
  deriving Repr, DecidableEq

/-- commit embeds `GitOperator.commit` (git.go lines 303–368).  The
`OverWrite` argument is the composition of the strategy's `Update` and
`yaml.Marshal`, i.e. a function from the old file bytes to either an
error or the new serialized bytes.  If `Stat` fails because the target
file does not exist, the function returns `nil` having changed nothing;
otherwise the file is read, updated, removed and rewritten with a
trailing newline appended, and the path is staged with `w.Add`. -/
def commit (w : Worktree) (targetFilePath : String)
    (o : String → Except String String) : Option String × Worktree :=
  match w.files.lookup targetFilePath with
  | none => (none, w)
  | some b =>
    match o b with
    | Except.error e => (some e, w)
    | Except.ok rb =>
      (none,
        { files := (targetFilePath, rb ++ "\n")
            :: w.files.filter (fun f => !(f.1 == targetFilePath))
          staged := targetFilePath
            :: w.staged.filter (fun p => !(p == targetFilePath)) })

/-! ## git.go: branch lifecycle -/

/-- RepoState is the reference store of the local repository together with
the worktree HEAD: `refs` maps branch names to commit hashes (go-git's
`Storer` references), `head` is the hash the worktree is currently at. -/
structure RepoState where
  refs : List (String × String)
  head : String
  deriving Repr, DecidableEq

/-- DeleteBranch embeds `GitOperator.DeleteBranch` (git.go lines 160–162):
`Storer.RemoveReference` drops the reference with the given name. -/
def DeleteBranch (st : RepoState) (branch : String) : RepoState :=
  { st with refs := st.refs.filter (fun r => !(r.1 == branch)) }

/-- checkoutMainBranch embeds the effect of `GitOperator.checkoutMainBranch`
(git.go lines 222–250) on the state: after checking out the default branch
and pulling, HEAD is at the fresh upstream base of the default branch,
supplied here as `freshBase`. -/
def checkoutMainBranch (st : RepoState) (freshBase : String) : RepoState :=
  { st with head := freshBase }

/-- checkoutCreateBranch embeds `w.Checkout(&CheckoutOptions{Create: true,
Branch: branch})`: go-git refuses to create a branch whose reference
already exists; otherwise the new reference is created at HEAD and
checked out. -/
def checkoutCreateBranch (st : RepoState) (branch : String) : Option RepoState :=
  if st.refs.any (fun r => r.1 == branch) then none
  else some { refs := (branch, st.head) :: st.refs, head := st.head }

/-- createAndCheckoutNewBranch embeds `GitOperator.createAndCheckoutNewBranch`
(git.go lines 252–274): delete any existing reference with that name
(best-effort), check out the default branch at its fresh base, then create
and check out the new branch there. -/
def createAndCheckoutNewBranch (st : RepoState) (branch freshBase : String) :
    Option RepoState :=
  checkoutCreateBranch (checkoutMainBranch (DeleteBranch st branch) freshBase) branch

/-- setReference embeds `Storer.SetReference` for a branch name: the
reference is set to the given hash, replacing an existing one.  This is
how commits made on a work branch (git.go lines 189–198) move its ref. -/
def setReference (st : RepoState) (branch hash : String) : RepoState :=
  { st with refs := (branch, hash) :: st.refs.filter (fun r => !(r.1 == branch)) }

/-! ## git.go: getLocalRepoRoot and Clean -/

/-- listStartsWith tests whether the first list begins with the second. -/
def listStartsWith : List Char → List Char → Bool
  | _, [] => true
  | [], _ :: _ => false
  | a :: as, b :: bs => a == b && listStartsWith as bs

/-- replaceAllChars rewrites every non-overlapping occurrence of `pat` by
`rep`, scanning left to right; `fuel` bounds the recursion (callers pass
the input length, which suffices since each step consumes at least one
character). -/
def replaceAllChars (pat rep : List Char) : Nat → List Char → List Char
  | _, [] => []
  | 0, l => l
  | fuel + 1, c :: rest =>
    if pat ≠ [] ∧ listStartsWith (c :: rest) pat then
      rep ++ replaceAllChars pat rep fuel (List.drop (pat.length - 1) rest)
    else
      c :: replaceAllChars pat rep fuel rest

/-- replaceAll models Go's `strings.ReplaceAll`. -/
def replaceAll (s pat rep : String) : String :=
  String.mk (replaceAllChars pat.data rep.data s.data.length s.data)

/-- trimSuffix models Go's `strings.TrimSuffix`: drop the suffix when
present, otherwise return the string unchanged. -/
def trimSuffix (s suf : String) : String :=
  if listStartsWith s.data.reverse suf.data.reverse then
    String.mk (s.data.take (s.data.length - suf.data.length))
  else s

/-- filepathJoin models Go's `filepath.Join` on two elements: empty
elements are skipped and the rest are joined with the separator (the
path cleaning Join also performs does not matter for the already-clean
paths the operator builds). -/
def filepathJoin (a b : String) : String :=
  if a == "" then b else if b == "" then a else a ++ "/" ++ b

/-- GitOperator carries the fields of the Go struct that the embedded
methods read (the authentication method and repository handle live in
the external git layer). -/
structure GitOperator where
  repo : String
  username : String
  defaultBranch : String
  gitRoot : String
  deriving Repr, DecidableEq

/-- getLocalRepoRoot embeds `GitOperator.getLocalRepoRoot` (git.go lines
87–111): with a configured gitRoot, strip the `https://` scheme from the
repo URL, turn the remaining slashes into path separators (the identity
on this platform, kept for fidelity), trim a `.git` suffix and join under
gitRoot; with no gitRoot (in-memory filesystem) return the empty string. -/
def getLocalRepoRoot (g : GitOperator) : String :=
  if g.gitRoot ≠ "" then
    let repo := replaceAll g.repo "https://" ""
    let repo := replaceAll repo "/" "/"
    let repo := trimSuffix repo ".git"
    filepathJoin g.gitRoot repo
  else ""

/-- removeAllPaths models `os.RemoveAll(p)` on a filesystem given as the
list of existing paths: `p` itself and everything below it disappear. -/
def removeAllPaths (fs : List String) (p : String) : List String :=
  fs.filter (fun q => !(q == p || listStartsWith q.data (p ++ "/").data))

/-- Clean embeds `GitOperator.Clean` (git.go lines 138–154) over the
explicit filesystem `fs` (the list of existing paths): with a local repo
root, `os.Stat` of its `.git` marker must succeed or Clean returns the
stat error without deleting anything; only then is the root removed
recursively.  Without a local root Clean is a no-op returning `nil`. -/
def Clean (g : GitOperator) (fs : List String) : Option String × List String :=
  let p := getLocalRepoRoot g
  if p ≠ "" then
    let dotGit := filepathJoin p ".git"
    if fs.contains dotGit then
      (none, removeAllPaths fs p)
    else
      (some ("unable to stat " ++ dotGit), fs)
  else (none, fs)

/-! ## AutoDeploy.checkAndDeploy -/

/-- CheckEnv supplies the outcomes of the external calls one
`checkAndDeploy` tick makes, in program order: `CreateECRInstance`,
`phase.Destination.GetCurrentRevision`, `ecr.FindImageTagByRegexp`
(Go returns the `(tag, err)` pair, mirrored here), `modelList.Find`,
`model.Deploy`, the phase's notify channel, and `client.PostMessage`. -/
structure CheckEnv where
  ecrErr : Option String
  currentRevision : Except String String
  findTagResult : String × Option String
  modelFindErr : Option String
  deployErr : Option String
  notifyChannel : String
  postErr : Option String
  deriving Repr

/-- checkAndDeploy embeds `AutoDeploy.checkAndDeploy` (the auto-deploy
watcher tick) and returns the pair (deploy executor invoked, notification
posted).  Each failing step returns early; equal tags or a registry query
error skip the tick before the executor runs; the notification is only
attempted on deploy success when the phase declares a channel. -/
def checkAndDeploy (env : CheckEnv) : Bool × Bool :=
  match env.ecrErr with
  | some _ => (false, false)
  | none =>
    match env.currentRevision with
    | Except.error _ => (false, false)
    | Except.ok currentTag =>
      let tag := env.findTagResult.1
      let ferr := env.findTagResult.2
      if currentTag == tag || ferr.isSome then (false, false)
      else
        match env.modelFindErr with
        | some _ => (false, false)
        | none =>
          match env.deployErr with
          | some _ => (true, false)
          | none =>
            if env.notifyChannel ≠ "" then (true, true) else (true, false)

/-! ## slack.go: toPhase -/

/-- toPhase mirrors `SlackListener.toPhase` (slack.go lines 256–267),
a switch over phase aliases with a `"staging"` default. -/
def toPhase (str : String) : String :=
  match str with
  | "pro" | "prd" | "production" => "production"
  | "stg" | "staging" => "staging"
  | "sandbox" => "sandbox"
  | _ => "staging"

/-! ## Theorems -/

/-- C10: toPhase returns one of exactly three values — `"production"` for
`"pro"`, `"prd"`, `"production"`; `"staging"` for `"stg"`, `"staging"`;
`"sandbox"` for `"sandbox"`; and `"staging"` for every other string, so an
unrecognized alias silently targets staging. -/
theorem toPhase_total_mapping :
    (∀ s : String,
      toPhase s = "production" ∨ toPhase s = "staging" ∨ toPhase s = "sandbox")
    ∧ toPhase "pro" = "production"
    ∧ toPhase "prd" = "production"
    ∧ toPhase "production" = "production"
    ∧ toPhase "stg" = "staging"
    ∧ toPhase "staging" = "staging"
    ∧ toPhase "sandbox" = "sandbox"
    ∧ (∀ s : String, s ≠ "pro" → s ≠ "prd" → s ≠ "production" → s ≠ "stg" →
        s ≠ "staging" → s ≠ "sandbox" → toPhase s = "staging") := by
  refine ⟨?_, rfl, rfl, rfl, rfl, rfl, rfl, ?_⟩
  · intro s
    unfold toPhase
    split <;> simp
  · intro s h1 h2 h3 h4 h5 h6
    unfold toPhase
    split <;> simp_all

/-- C10 witness: an unrecognized alias maps to staging. -/
theorem toPhase_total_mapping_witness : toPhase "weird" = "staging" :=
  toPhase_total_mapping.2.2.2.2.2.2.2 "weird" (by decide) (by decide)
    (by decide) (by decide) (by decide) (by decide)

/-- C7: a commit-overwrite invocation whose target file path does not exist
in the worktree filesystem skips the mutation and returns nil, leaving the
worktree unchanged. -/
theorem commit_missing_file_noop (w : Worktree) (targetFilePath : String)
    (o : String → Except String String)
    (h : w.files.lookup targetFilePath = none) :
    commit w targetFilePath o = (none, w) := by
  unfold commit
  rw [h]

/-- C7 witness: committing against a path absent from a concrete worktree
returns nil and changes nothing. -/
theorem commit_missing_file_noop_witness :
    commit { files := [("a.txt", "x")], staged := [] } "kustomization.yaml"
      (fun b => Except.ok b)
      = (none, { files := [("a.txt", "x")], staged := [] }) :=
  commit_missing_file_noop
    { files := [("a.txt", "x")], staged := [] } "kustomization.yaml"
    (fun b => Except.ok b) (by decide)

/-- filepathJoin never yields the empty string when its first element is
nonempty. -/
theorem filepathJoin_ne_empty (a b : String) (h : a ≠ "") :
    filepathJoin a b ≠ "" := by
  have ha : (a == "") = false := by simp [h]
  unfold filepathJoin
  simp only [ha, Bool.false_eq_true, if_false]
  split
  · exact h
  · intro hc
    have hdata := congrArg String.data hc
    simp [String.data_append] at hdata

/-- getLocalRepoRoot is nonempty whenever a gitRoot is configured. -/
theorem getLocalRepoRoot_ne_empty (g : GitOperator) (h : g.gitRoot ≠ "") :
    getLocalRepoRoot g ≠ "" := by
  unfold getLocalRepoRoot
  rw [if_pos h]
  exact filepathJoin_ne_empty _ _ h

/-- C6: Clean on an operator with a configured local path whose derived
repository root lacks the `.git` marker returns an error and performs no
filesystem deletion. -/
theorem Clean_missing_marker_no_deletion (g : GitOperator) (fs : List String)
    (h1 : g.gitRoot ≠ "")
    (h2 : fs.contains (filepathJoin (getLocalRepoRoot g) ".git") = false) :
    (Clean g fs).1.isSome = true ∧ (Clean g fs).2 = fs := by
  unfold Clean
  rw [if_pos (getLocalRepoRoot_ne_empty g h1)]
  have h2m : filepathJoin (getLocalRepoRoot g) ".git" ∉ fs := by
    simpa using h2
  simp [h2m]

/-- C6 witness: a concrete operator with a local root and a filesystem
without the marker gets an error and an unchanged filesystem. -/
theorem Clean_missing_marker_no_deletion_witness :
    (Clean { repo := "https://github.com/zaiminc/gocat.git", username := "u",
             defaultBranch := "refs/heads/main", gitRoot := "/tmp/root" }
      ["/tmp/root/github.com/zaiminc/gocat/file.txt"]).1.isSome = true
    ∧ (Clean { repo := "https://github.com/zaiminc/gocat.git", username := "u",
               defaultBranch := "refs/heads/main", gitRoot := "/tmp/root" }
      ["/tmp/root/github.com/zaiminc/gocat/file.txt"]).2
      = ["/tmp/root/github.com/zaiminc/gocat/file.txt"] :=
  Clean_missing_marker_no_deletion
    { repo := "https://github.com/zaiminc/gocat.git", username := "u",
      defaultBranch := "refs/heads/main", gitRoot := "/tmp/root" }
    ["/tmp/root/github.com/zaiminc/gocat/file.txt"]
    (by decide) (by decide)

/-- C4: a checkAndDeploy tick in which the registry tag equals the
current-revision tag, or in which either query returns an error, invokes
no deploy executor and posts no notification. -/
theorem checkAndDeploy_skip (env : CheckEnv)
    (h : (∃ t, env.currentRevision = Except.ok t ∧ env.findTagResult.1 = t)
      ∨ (∃ e, env.currentRevision = Except.error e)
      ∨ env.findTagResult.2.isSome = true) :
    checkAndDeploy env = (false, false) := by
  unfold checkAndDeploy
  cases hecr : env.ecrErr with
  | some e => rfl
  | none =>
    cases hcr : env.currentRevision with
    | error e => rfl
    | ok currentTag =>
      rcases h with ⟨t, hok, htag⟩ | ⟨e, herr⟩ | hsome
      · rw [hcr] at hok
        cases hok
        simp [htag]
      · rw [hcr] at herr
        cases herr
      · simp [hsome]

/-- C4 witness: with both queries succeeding and returning the same tag,
the tick does nothing. -/
theorem checkAndDeploy_skip_witness :
    checkAndDeploy
      { ecrErr := none, currentRevision := Except.ok "v1",
        findTagResult := ("v1", none), modelFindErr := none,
        deployErr := none, notifyChannel := "deploys", postErr := none }
      = (false, false) :=
  checkAndDeploy_skip
    { ecrErr := none, currentRevision := Except.ok "v1",
      findTagResult := ("v1", none), modelFindErr := none,
      deployErr := none, notifyChannel := "deploys", postErr := none }
    (Or.inl ⟨"v1", rfl, rfl⟩)

/-- C2: whenever the worktree status shows some path with a staged state
other than modified (a newly-added or deleted file, say), verify returns an
error and PushDockerImageTag returns before committing or pushing: the
staged changes are neither committed nor pushed. -/
theorem verify_blocks_commit_and_push (env : PushEnv) (id phaseName tag : String)
    (h : ∃ e ∈ env.statusEntries, e.2.staging ≠ StatusCode.modified) :
    (verify env.statusEntries).isSome = true
    ∧ PushAction.commitToBranch ∉ (PushDockerImageTag env id phaseName tag).actions
    ∧ PushAction.pushToRemote ∉ (PushDockerImageTag env id phaseName tag).actions := by
  obtain ⟨e, hmem, hne⟩ := h
  have hfind : (env.statusEntries.find?
      (fun e => !(e.2.staging == StatusCode.modified))).isSome = true := by
    rw [List.find?_isSome]
    exact ⟨e, hmem, by simp [hne]⟩
  have hv : verify env.statusEntries = some "There are some extra file updates" := by
    unfold verify
    obtain ⟨x, hx⟩ := Option.isSome_iff_exists.mp hfind
    rw [hx]
  refine ⟨by rw [hv]; rfl, ?_, ?_⟩ <;>
    cases h1 : env.checkoutErr <;>
    cases h2 : env.commitKustomizationErr <;>
    cases h3 : env.commitConfigmapErr <;>
    simp [PushDockerImageTag, hv, h1, h2, h3]

/-- C2 witness: with a newly-added unrelated file in the status, a concrete
push attempt neither commits nor pushes. -/
theorem verify_blocks_commit_and_push_witness :
    (verify [("extra.txt", FileStatus.mk StatusCode.added StatusCode.untracked)]).isSome = true
    ∧ PushAction.commitToBranch ∉
      (PushDockerImageTag
        { checkoutErr := none, commitKustomizationErr := none,
          commitConfigmapErr := none,
          statusEntries := [("extra.txt", FileStatus.mk StatusCode.added StatusCode.untracked)],
          setRefErr := none, remoteErr := none, pushErr := none }
        "api" "staging" "v2").actions
    ∧ PushAction.pushToRemote ∉
      (PushDockerImageTag
        { checkoutErr := none, commitKustomizationErr := none,
          commitConfigmapErr := none,
          statusEntries := [("extra.txt", FileStatus.mk StatusCode.added StatusCode.untracked)],
          setRefErr := none, remoteErr := none, pushErr := none }
        "api" "staging" "v2").actions :=
  verify_blocks_commit_and_push
    { checkoutErr := none, commitKustomizationErr := none,
      commitConfigmapErr := none,
      statusEntries := [("extra.txt", FileStatus.mk StatusCode.added StatusCode.untracked)],
      setRefErr := none, remoteErr := none, pushErr := none }
    "api" "staging" "v2"
    ⟨("extra.txt", FileStatus.mk StatusCode.added StatusCode.untracked),
      by decide, by decide⟩

/-- C1 counterexample: the delegated-apply tool produces exactly one pull
request, but its number string does not parse as an integer, so Prepare
returns a failed outcome with an error rather than a Success outcome. -/
theorem prepare_single_pr_counterexample :
    (prepareFromPullRequests "pj" "staging" "t1"
      [{ nodeID := "N", number := "not-a-number", htmlURL := "u" }]).1.status
      = DeployStatus.fail
    ∧ (prepareFromPullRequests "pj" "staging" "t1"
      [{ nodeID := "N", number := "not-a-number", htmlURL := "u" }]).2
      = some "failed to convert pull request number to int" :=
  ⟨rfl, rfl⟩

/-- C1 (amended): zero pull requests yield AlreadyDeployed with no error;
exactly one whose number parses yields Success carrying that pull request's
node id, parsed number and URL, with the conventional branch name; exactly
one whose number does not parse yields a failed outcome with a conversion
error; two or more yield a failed outcome with the unsupported-multiple-
pull-requests error. -/
theorem prepare_outcome_mapping (pjID phName tag : String)
    (prs : List PullRequest) :
    (prs = [] →
      prepareFromPullRequests pjID phName tag prs
        = ({ prepareZeroOutput with status := DeployStatus.already }, none))
    ∧ (∀ pr n, prs = [pr] → atoi pr.number = some n →
      prepareFromPullRequests pjID phName tag prs
        = ({ pullRequestID := pr.nodeID, pullRequestNumber := n,
             pullRequestHTMLURL := pr.htmlURL,
             branch := specBranchName pjID phName tag,
             status := DeployStatus.success }, none))
    ∧ (∀ pr, prs = [pr] → atoi pr.number = none →
      prepareFromPullRequests pjID phName tag prs
        = (prepareZeroOutput, some "failed to convert pull request number to int"))
    ∧ (2 ≤ prs.length →
      prepareFromPullRequests pjID phName tag prs
        = (prepareZeroOutput,
           some "gocat does not yet support multiple pull requests created by kanvas")) := by
  refine ⟨?_, ?_, ?_, ?_⟩
  · intro h
    subst h
    rfl
  · intro pr n h hn
    subst h
    simp [prepareFromPullRequests, hn, kanvasPullRequestHead, specBranchName]
  · intro pr h hn
    subst h
    simp [prepareFromPullRequests, hn]
  · intro h
    match prs, h with
    | a :: b :: t, _ => rfl

/-- C1 witness: a concrete instance of each of the four cases of the
amended outcome mapping. -/
theorem prepare_outcome_mapping_witness :
    prepareFromPullRequests "pj" "staging" "t1" []
      = ({ prepareZeroOutput with status := DeployStatus.already }, none)
    ∧ prepareFromPullRequests "pj" "staging" "t1"
        [{ nodeID := "N", number := "41", htmlURL := "u" }]
      = ({ pullRequestID := "N", pullRequestNumber := 41,
           pullRequestHTMLURL := "u",
           branch := specBranchName "pj" "staging" "t1",
           status := DeployStatus.success }, none)
    ∧ prepareFromPullRequests "pj" "staging" "t1"
        [{ nodeID := "N", number := "x", htmlURL := "u" },
         { nodeID := "M", number := "y", htmlURL := "v" }]
      = (prepareZeroOutput,
         some "gocat does not yet support multiple pull requests created by kanvas") :=
  ⟨(prepare_outcome_mapping "pj" "staging" "t1" []).1 rfl,
   (prepare_outcome_mapping "pj" "staging" "t1"
      [{ nodeID := "N", number := "41", htmlURL := "u" }]).2.1
     { nodeID := "N", number := "41", htmlURL := "u" } 41 rfl (by decide),
   (prepare_outcome_mapping "pj" "staging" "t1"
      [{ nodeID := "N", number := "x", htmlURL := "u" },
       { nodeID := "M", number := "y", htmlURL := "v" }]).2.2.2 (by decide)⟩

/-- C8: both branch-name computations — the branch PushDockerImageTag
builds, pushes and returns, and the pull-request head the kanvas strategy
passes to the delegated tool and records in a Success outcome — are exactly
the conventional name bot/docker-image-tag-(project id)-(phase name)-(tag). -/
theorem deploy_branch_name_convention (env : PushEnv)
    (id phaseName tag pjID phName ktag : String) (prs : List PullRequest) :
    ((PushDockerImageTag env id phaseName tag).err = none →
      (PushDockerImageTag env id phaseName tag).branch
        = specBranchName id phaseName tag)
    ∧ kanvasPullRequestHead pjID phName ktag = specBranchName pjID phName ktag
    ∧ (∀ out err, prepareFromPullRequests pjID phName ktag prs = (out, err) →
        out.status = DeployStatus.success →
        out.branch = specBranchName pjID phName ktag) := by
  refine ⟨?_, rfl, ?_⟩
  · cases h1 : env.checkoutErr <;>
      cases h2 : env.commitKustomizationErr <;>
      cases h3 : env.commitConfigmapErr <;>
      cases hv : verify env.statusEntries <;>
      cases h4 : env.setRefErr <;>
      cases h5 : env.remoteErr <;>
      cases h6 : env.pushErr <;>
      simp [PushDockerImageTag, specBranchName, hv, h1, h2, h3, h4, h5, h6]
  · intro out err heq hs
    match prs, heq with
    | [], heq =>
      cases heq
      cases hs
    | [pr], heq =>
      cases hn : atoi pr.number with
      | none =>
        simp only [prepareFromPullRequests, hn] at heq
        cases heq
        cases hs
      | some n =>
        simp only [prepareFromPullRequests, hn] at heq
        cases heq
        rfl
    | a :: b :: t, heq =>
      cases heq
      cases hs

/-- C8 witness: a successful concrete push and a successful concrete
prepared outcome both carry the conventional branch name. -/
theorem deploy_branch_name_convention_witness :
    (PushDockerImageTag
      { checkoutErr := none, commitKustomizationErr := none,
        commitConfigmapErr := none,
        statusEntries := [("k.yaml", FileStatus.mk StatusCode.modified StatusCode.unmodified)],
        setRefErr := none, remoteErr := none, pushErr := none }
      "api" "staging" "v2").branch = specBranchName "api" "staging" "v2"
    ∧ (prepareFromPullRequests "api" "staging" "v2"
        [{ nodeID := "N", number := "7", htmlURL := "u" }]).1.branch
      = specBranchName "api" "staging" "v2" :=
  ⟨(deploy_branch_name_convention
      { checkoutErr := none, commitKustomizationErr := none,
        commitConfigmapErr := none,
        statusEntries := [("k.yaml", FileStatus.mk StatusCode.modified StatusCode.unmodified)],
        setRefErr := none, remoteErr := none, pushErr := none }
      "api" "staging" "v2" "api" "staging" "v2" []).1 (by decide),
   (deploy_branch_name_convention
      { checkoutErr := none, commitKustomizationErr := none,
        commitConfigmapErr := none,
        statusEntries := [("k.yaml", FileStatus.mk StatusCode.modified StatusCode.unmodified)],
        setRefErr := none, remoteErr := none, pushErr := none }
      "api" "staging" "v2" "api" "staging" "v2"
      [{ nodeID := "N", number := "7", htmlURL := "u" }]).2.2
     (prepareFromPullRequests "api" "staging" "v2"
        [{ nodeID := "N", number := "7", htmlURL := "u" }]).1
     (prepareFromPullRequests "api" "staging" "v2"
        [{ nodeID := "N", number := "7", htmlURL := "u" }]).2
     rfl (by decide)⟩

/-- C3: re-applying the image-tag overwrite with a tag the target entry
already carries leaves that entry unchanged at its position, and applying
it when no entry with the target name exists appends exactly one new entry
`{name: target, newTag: tag}` while preserving all pre-existing entries. -/
theorem kustomization_update_entry_stable_and_append
    (tag targetTag : String) (obj : Kustomization) :
    (∀ i im, obj.images.get? i = some im → im.name = targetTag →
      im.newTag = tag →
      ((KustomizationOverWrite.mk tag targetTag).Update obj).images.get? i = some im)
    ∧ ((∀ im ∈ obj.images, im.name ≠ targetTag) →
      ((KustomizationOverWrite.mk tag targetTag).Update obj).images
        = obj.images ++
          [{ name := targetTag, newName := "", newTag := tag, digest := "" }]) := by
  constructor
  · intro i im hg hn ht
    have hmem : im ∈ obj.images := List.get?_mem hg
    have hupd : obj.images.any (fun image => image.name == targetTag) = true :=
      List.any_eq_true.mpr ⟨im, hmem, by simp [hn]⟩
    unfold KustomizationOverWrite.Update
    simp only [hupd, if_true]
    rw [List.get?_map, hg]
    subst ht
    obtain ⟨nm, nn, nt, dg⟩ := im
    simp at hn
    simp [hn]
  · intro hnone
    have hupd : obj.images.any (fun image => image.name == targetTag) = false := by
      rw [List.any_eq_false]
      intro x hx
      simp [hnone x hx]
    unfold KustomizationOverWrite.Update
    simp [hupd]

/-- C3 witness: re-application on an entry already at the target tag keeps
the entry in place, and application without a matching entry appends the
fresh entry while keeping the others. -/
theorem kustomization_update_entry_stable_and_append_witness :
    ((KustomizationOverWrite.mk "v2" "app").Update
      { images := [{ name := "app", newName := "", newTag := "v2", digest := "" }],
        fields := [] }).images.get? 0
      = some { name := "app", newName := "", newTag := "v2", digest := "" }
    ∧ ((KustomizationOverWrite.mk "v2" "app").Update
      { images := [{ name := "other", newName := "", newTag := "v1", digest := "" }],
        fields := [] }).images
      = [{ name := "other", newName := "", newTag := "v1", digest := "" },
         { name := "app", newName := "", newTag := "v2", digest := "" }] :=
  ⟨(kustomization_update_entry_stable_and_append "v2" "app"
      { images := [{ name := "app", newName := "", newTag := "v2", digest := "" }],
        fields := [] }).1
    0 { name := "app", newName := "", newTag := "v2", digest := "" }
    rfl rfl rfl,
   (kustomization_update_entry_stable_and_append "v2" "app"
      { images := [{ name := "other", newName := "", newTag := "v1", digest := "" }],
        fields := [] }).2
    (by decide)⟩

/-- references filtered away by name never satisfy the same-name test. -/
theorem refs_filter_any_eq_false (b : String) (l : List (String × String)) :
    (l.filter (fun r => !(r.1 == b))).any (fun r => r.1 == b) = false := by
  rw [List.any_eq_false]
  intro x hx
  have := (List.mem_filter.mp hx).2
  simp_all

/-- filtering by a name removed by the complementary filter yields nothing. -/
theorem refs_filter_ne_filter_eq (b : String) (l : List (String × String)) :
    (l.filter (fun r => !(r.1 == b))).filter (fun r => r.1 == b) = [] := by
  induction l with
  | nil => rfl
  | cons hd tl ih =>
    by_cases h : hd.1 = b <;> simp [List.filter_cons, h, ih]

/-- createAndCheckoutNewBranch always succeeds and leaves the reference
store holding the new branch at the fresh base on top of every reference
with a different name. -/
theorem createAndCheckoutNewBranch_eq (st : RepoState) (branch freshBase : String) :
    createAndCheckoutNewBranch st branch freshBase
      = some ⟨(branch, freshBase) :: st.refs.filter (fun r => !(r.1 == branch)),
          freshBase⟩ := by
  unfold createAndCheckoutNewBranch checkoutCreateBranch checkoutMainBranch DeleteBranch
  simp [refs_filter_any_eq_false]

/-- C5: calling createAndCheckoutNewBranch twice with the same branch name
— with arbitrary commits moving the branch ref in between — leaves exactly
one reference with that name, pointing at the fresh default-branch base of
the second call; the pre-existing reference is deleted before the new
branch is created. -/
theorem branch_recreation_single_ref (st : RepoState) (b base1 base2 hash : String) :
    ((createAndCheckoutNewBranch st b base1).bind
      (fun st1 => createAndCheckoutNewBranch (setReference st1 b hash) b base2)).map
      (fun st2 => st2.refs.filter (fun r => r.1 == b))
    = some [(b, base2)] := by
  rw [createAndCheckoutNewBranch_eq]
  rw [Option.some_bind]
  rw [createAndCheckoutNewBranch_eq]
  simp [List.filter_cons, refs_filter_ne_filter_eq]

/-- the image-tag overwrite touches only the images field. -/
theorem update_preserves_nonimage_fields (o : KustomizationOverWrite)
    (k : Kustomization) :
    (o.Update k).fields = k.fields := by
  unfold KustomizationOverWrite.Update
  cases h : k.images.any (fun image => image.name == o.targetTag) <;> simp [h]

/-- a key outside the kustomization schema never survives the unmarshal
filter. -/
theorem lookup_filter_not_contains (key : String) (l : YamlDoc)
    (h : kustomizationFieldKeys.contains key = false) :
    List.lookup key (l.filter kustomizationFieldFilter) = none := by
  induction l with
  | nil => rfl
  | cons hd tl ih =>
    obtain ⟨k1, v1⟩ := hd
    cases hp : kustomizationFieldFilter (k1, v1) with
    | false => simp [List.filter_cons, hp, ih]
    | true =>
      have hc : kustomizationFieldKeys.contains k1 = true := by
        have hp2 := hp
        simp only [kustomizationFieldFilter, Bool.and_eq_true] at hp2
        exact hp2.1
      have hne : (key == k1) = false := by
        refine beq_false_of_ne fun he => ?_
        rw [he] at h
        exact absurd hc (by simpa using h)
      simp [List.filter_cons, hp, List.lookup, hne, ih]

/-- a key looked up in neither half of an appended document is absent from
the whole. -/
theorem lookup_append_none (key : String) (l1 l2 : YamlDoc)
    (h1 : List.lookup key l1 = none) (h2 : List.lookup key l2 = none) :
    List.lookup key (l1 ++ l2) = none := by
  induction l1 with
  | nil => simpa using h2
  | cons hd tl ih =>
    obtain ⟨k1, v1⟩ := hd
    cases hb : (key == k1) with
    | true => simp [List.lookup, hb] at h1
    | false =>
      simp only [List.cons_append, List.lookup, hb] at h1 ⊢
      exact ih h1

/-- C9 counterexample: a manifest carrying a top-level field unknown to the
kustomization schema loses it across the parse, update, re-serialize cycle
of the commit path, so unknown fields do not round-trip unchanged. -/
theorem roundtrip_drops_unknown_field_counterexample :
    (commitRoundTrip
      [("foo", YamlValue.scalar "bar"),
       ("images", YamlValue.imageList
          [{ name := "app", newName := "", newTag := "v1", digest := "" }])]
      "v2" "app").lookup "foo" = none
    ∧ List.lookup "foo"
      [("foo", YamlValue.scalar "bar"),
       ("images", YamlValue.imageList
          [{ name := "app", newName := "", newTag := "v1", digest := "" }])]
      = some (YamlValue.scalar "bar") :=
  ⟨rfl, rfl⟩

/-- C9 (amended): for every manifest document rewritten by the commit path,
the fields other than the image list that belong to the kustomization
schema round-trip with unchanged values through the parse, update and
re-serialize cycle, while top-level fields unknown to the schema are
dropped by the cycle. -/
theorem roundtrip_known_fields_and_drops_unknown (doc : YamlDoc)
    (tag targetTag : String) :
    (yamlUnmarshalKustomization (commitRoundTrip doc tag targetTag)).fields
      = (yamlUnmarshalKustomization doc).fields
    ∧ (∀ key, key ∉ kustomizationFieldKeys →
        (commitRoundTrip doc tag targetTag).lookup key = none) := by
  constructor
  · show (yamlMarshalKustomization
        ((KustomizationOverWrite.mk tag targetTag).Update
          (yamlUnmarshalKustomization doc))).filter kustomizationFieldFilter
      = (yamlUnmarshalKustomization doc).fields
    unfold yamlMarshalKustomization
    rw [List.filter_append, update_preserves_nonimage_fields]
    have himg : (if ((KustomizationOverWrite.mk tag targetTag).Update
          (yamlUnmarshalKustomization doc)).images.isEmpty then ([] : YamlDoc)
        else [("images", YamlValue.imageList
          ((KustomizationOverWrite.mk tag targetTag).Update
            (yamlUnmarshalKustomization doc)).images)]).filter
        kustomizationFieldFilter = [] := by
      split <;> simp [kustomizationFieldFilter]
    rw [himg, List.append_nil]
    show (doc.filter kustomizationFieldFilter).filter kustomizationFieldFilter
      = doc.filter kustomizationFieldFilter
    rw [List.filter_filter]
    simp only [Bool.and_self]
  · intro key hk
    have hb : kustomizationFieldKeys.contains key = false := by
      cases hc : kustomizationFieldKeys.contains key
      · rfl
      · exact absurd (by simpa using hc) hk
    have hki : (key == "images") = false := by
      refine beq_false_of_ne fun he => ?_
      exact hk (by rw [he]; decide)
    show List.lookup key (yamlMarshalKustomization _) = none
    unfold yamlMarshalKustomization
    refine lookup_append_none key _ _ ?_ ?_
    · rw [update_preserves_nonimage_fields]
      exact lookup_filter_not_contains key doc hb
    · split
      · rfl
      · simp [List.lookup, hki]

/-- C9 witness: on a concrete manifest carrying a namespace field the
parsed non-image fields survive the cycle, and a concrete key outside the
schema is absent afterwards. -/
theorem roundtrip_known_fields_and_drops_unknown_witness :
    (yamlUnmarshalKustomization (commitRoundTrip
      [("namespace", YamlValue.scalar "prod"),
       ("images", YamlValue.imageList
          [{ name := "app", newName := "", newTag := "v1", digest := "" }])]
      "v2" "app")).fields
      = (yamlUnmarshalKustomization
          [("namespace", YamlValue.scalar "prod"),
           ("images", YamlValue.imageList
              [{ name := "app", newName := "", newTag := "v1", digest := "" }])]).fields
    ∧ (commitRoundTrip
      [("namespace", YamlValue.scalar "prod"),
       ("images", YamlValue.imageList
          [{ name := "app", newName := "", newTag := "v1", digest := "" }])]
      "v2" "app").lookup "someUnknownKey" = none :=
  ⟨(roundtrip_known_fields_and_drops_unknown
      [("namespace", YamlValue.scalar "prod"),
       ("images", YamlValue.imageList
          [{ name := "app", newName := "", newTag := "v1", digest := "" }])]
      "v2" "app").1,
   (roundtrip_known_fields_and_drops_unknown
      [("namespace", YamlValue.scalar "prod"),
       ("images", YamlValue.imageList
          [{ name := "app", newName := "", newTag := "v1", digest := "" }])]
      "v2" "app").2 "someUnknownKey" (by decide)⟩

end Gocat
